import Mathlib

/-!
Shallow embedding of the `correlation_structure` BRER workflow core
(`run_data.py`, `run_config.py`, `directory_helper.py`) and proofs about it.

Python dictionaries are modelled as insertion-ordered association lists
(`List (String × α)`); Python floats as rationals (`ℚ`); fallible Python code
returns `Except Err _`, where the `Err` constructors name the Python exception
class raised at that point.  The filesystem is modelled as the set of existing
file paths plus the content of the persisted `state.json` document; the
external gmxapi engine and the target resampler are oracles supplied through
an `Env` record.

The modules `metadata.py`, `pair_data.py` and `plugin_configs.py` are imported
by the sources but are not part of the repository snapshot; the few behaviours
of theirs that matter here (a `MetaData` store is a dict with a name and a
requirements list; `PairData` carries a name and a site list) are modelled from
the spec and marked as such in their doc comments.
-/

namespace CorrStruct

/-- Python exception classes that the embedded code can raise.
`fuelExhausted` is a model artifact: the training resampling loop of
`RunConfig.__train` is given explicit fuel, where Python would keep drawing. -/
inductive Err where
  | keyError
  | valueError
  | typeError
  | assertionError
  | fileNotFound
  | fuelExhausted
deriving DecidableEq, Repr

/-- Python values stored in the metadata dictionaries: ints, floats (as `ℚ`),
strings, lists of ints (restraint sites) and lists of floats (history alphas). -/
inductive Val where
  | vInt (i : Int)
  | vRat (q : ℚ)
  | vStr (s : String)
  | vIntList (l : List Int)
  | vRatList (l : List ℚ)
deriving DecidableEq, Repr

/-- Lookup in an insertion-ordered association list (Python `d[k]`, as Option). -/
def alookup {α : Type} : List (String × α) → String → Option α
  | [], _ => none
  | (k1, v) :: rest, k => if k1 = k then some v else alookup rest k

/-- Key membership test (Python `k in d`). -/
def hasKey {α : Type} : List (String × α) → String → Bool
  | [], _ => false
  | (k1, _) :: rest, k => if k1 = k then true else hasKey rest k

/-- Python dict assignment `d[k] = v`: replaces in place when the key exists
(preserving its position), appends otherwise. -/
def dictSet {α : Type} : List (String × α) → String → α → List (String × α)
  | [], k, v => [(k, v)]
  | (k1, v1) :: rest, k, v =>
    if k1 = k then (k, v) :: rest else (k1, v1) :: dictSet rest k v

instance {ε α : Type} [DecidableEq ε] [DecidableEq α] : DecidableEq (Except ε α) :=
  fun a b =>
  match a, b with
  | .ok x, .ok y =>
    if h : x = y then .isTrue (by rw [h]) else .isFalse (fun hc => h (Except.ok.inj hc))
  | .error x, .error y =>
    if h : x = y then .isTrue (by rw [h]) else .isFalse (fun hc => h (Except.error.inj hc))
  | .ok _, .error _ => .isFalse (fun hc => Except.noConfusion hc)
  | .error _, .ok _ => .isFalse (fun hc => Except.noConfusion hc)

/-- Modelled from the spec: `metadata.py` (class `MetaData`) is not in the
repository snapshot.  Per §4.1 a Parameter Store is a named key/value container
with a fixed requirements list; `set` stores a key/value pair, `get` retrieves
one (`MissingValueError`, i.e. a `KeyError`, when absent), and
`set_from_dictionary` / `get_as_dictionary` are a bulk load (replacement) and
dump that round-trip. -/
structure MetaData where
  name : String
  requirements : List String
  metadata : List (String × Val)
deriving DecidableEq, Repr

/-- Modelled from the spec: `MetaData.set` stores one key/value pair. -/
def MetaData.set (md : MetaData) (k : String) (v : Val) : MetaData :=
  { md with metadata := dictSet md.metadata k v }

/-- Modelled from the spec: `MetaData.get` retrieves a stored value, raising
(`keyError`) when the key was never set. -/
def MetaData.get (md : MetaData) (k : String) : Except Err Val :=
  match alookup md.metadata k with
  | some v => .ok v
  | none => .error .keyError

/-- Modelled from the spec: bulk dump of the store. -/
def MetaData.get_as_dictionary (md : MetaData) : List (String × Val) :=
  md.metadata

/-- Modelled from the spec: bulk load of the store (replacement, so that the
spec-mandated round-trip with `get_as_dictionary` holds). -/
def MetaData.set_from_dictionary (md : MetaData) (d : List (String × Val)) : MetaData :=
  { md with metadata := d }

/-- Required keys of `GeneralParams` (run_data.py, `GeneralParams.__init__`). -/
def generalRequirements : List String :=
  ["ensemble_num", "iteration", "phase", "start_time", "A", "tau", "tolerance",
   "num_samples", "sample_period", "production_time"]

/-- Default general parameters (run_data.py, `GeneralParams.set_to_defaults`). -/
def generalDefaults : List (String × Val) :=
  [("ensemble_num", .vInt 1), ("iteration", .vInt 0), ("phase", .vStr "training"),
   ("start_time", .vInt 0), ("A", .vInt 50), ("tau", .vInt 50),
   ("tolerance", .vRat (1 / 4)), ("num_samples", .vInt 50),
   ("sample_period", .vInt 100), ("production_time", .vInt 10000)]

/-- A fresh `GeneralParams` store set to its defaults. -/
def GeneralParams.init : MetaData :=
  ⟨"general", generalRequirements, generalDefaults⟩

/-- Required keys of `PairParams` (run_data.py, `PairParams.__init__`). -/
def pairRequirements : List String :=
  ["sites", "logging_filename", "alpha", "target"]

/-- A fresh `PairParams` store for a named restraint. -/
def PairParams.init (name : String) : MetaData :=
  ⟨name, pairRequirements, []⟩

/-- `PairParams.load_sites` (run_data.py): stores the site list and the derived
logging filename `"<name>.log"`. -/
def PairParams.load_sites (md : MetaData) (sites : List Int) : MetaData :=
  (md.set "sites" (.vIntList sites)).set "logging_filename" (.vStr (md.name ++ ".log"))

/-- `PairParams.set_to_defaults` (run_data.py): `alpha = 0.0`, `target = 3.0`. -/
def PairParams.set_to_defaults (md : MetaData) : MetaData :=
  (md.set "alpha" (.vRat 0)).set "target" (.vRat 3)

/-- Stand-in for Python `str(x)` on a float target value.  The claims proved
here depend only on the signature construction (sorting and joining), never on
the exact decimal rendering. -/
def pyFloatStr (q : ℚ) : String := toString q

/-- The target-set keys in ascending sorted order
(run_data.py lines 95 and 103: `sorted(list(targets.keys()))`). -/
def sorted_keys (targets : List (String × ℚ)) : List String :=
  List.insertionSort (fun a b => a ≤ b) (targets.map Prod.fst)

/-- The canonical signature of a target set (run_data.py lines 96 and 104:
`",".join(str(targets[key]) for key in sorted_keys)`). -/
def target_key (targets : List (String × ℚ)) : String :=
  String.intercalate ","
    ((sorted_keys targets).map (fun k => pyFloatStr ((alookup targets k).getD 0)))

/-- The `History` ledger (run_data.py): a `MetaData` named `"history"` with no
requirements; its store maps a target-set signature to the alphas produced for
it.  Only the store matters here. -/
structure History where
  metadata : List (String × Val)
deriving DecidableEq, Repr

/-- `History.check_targets` (run_data.py lines 82-100): true iff the signature
of `targets` is already a recorded key. -/
def History.check_targets (h : History) (targets : List (String × ℚ)) : Bool :=
  hasKey h.metadata (target_key targets)

/-- `History.new_entry` (run_data.py lines 102-109): no-op (with a printed
warning) when the signature is already recorded, otherwise stores the alphas of
the sorted pair names under the signature.  `alphas` is the Python dict as a
total function, defined on every target key as at the call site. -/
def History.new_entry (h : History) (alphas : String → ℚ)
    (targets : List (String × ℚ)) : History :=
  let key := target_key targets
  if hasKey h.metadata key then h
  else ⟨dictSet h.metadata key (.vRatList ((sorted_keys targets).map alphas))⟩

/-- Modelled from the spec: `History.set_from_dictionary` (bulk load,
replacement), used by `RunData.from_dictionary`. -/
def History.set_from_dictionary (_h : History) (d : List (String × Val)) : History :=
  ⟨d⟩

/-- The `RunData` aggregate (run_data.py): one general store, a dict of
per-pair stores, and the history ledger. -/
structure RunData where
  general_params : MetaData
  pair_params : List (String × MetaData)
  history : History
deriving DecidableEq, Repr

/-- A fresh `RunData` (run_data.py, `RunData.__init__`): general parameters at
their defaults, no pairs, empty history. -/
def RunData.init : RunData :=
  ⟨GeneralParams.init, [], ⟨[]⟩⟩

/-- `RunData.set` without a pair name, for one keyword (run_data.py lines
141-150): a key in the general requirements goes to the general store, the
literal key `"history"` is stored into the history ledger, anything else raises
`ValueError`. -/
def RunData.setG (rd : RunData) (key : String) (v : Val) : Except Err RunData :=
  if key ∈ generalRequirements then
    .ok { rd with general_params := rd.general_params.set key v }
  else if key = "history" then
    .ok { rd with history := ⟨dictSet rd.history.metadata key v⟩ }
  else .error .valueError

/-- `RunData.set` with a pair name, for one keyword (run_data.py lines
151-155): the named pair store must exist (else `KeyError`) and the key must be
in its requirements (else `ValueError`). -/
def RunData.setP (rd : RunData) (name key : String) (v : Val) : Except Err RunData :=
  match alookup rd.pair_params name with
  | none => .error .keyError
  | some pp =>
    if key ∈ pp.requirements then
      .ok { rd with pair_params := dictSet rd.pair_params name (pp.set key v) }
    else .error .valueError

/-- What `RunData.get` can return: a stored value, or the whole history ledger
object (run_data.py line 177 returns `self.history`). -/
inductive GetResult where
  | val (v : Val)
  | hist (h : History)
deriving DecidableEq, Repr

/-- `RunData.get` (run_data.py lines 157-180), with the source's branch order:
a key in the general requirements is served from the general store (the name,
if any, is ignored); otherwise with a name the named pair store is consulted;
otherwise the literal key `"history"` returns the ledger; otherwise
`ValueError` (the routing error). -/
def RunData.get (rd : RunData) (key : String) (name : Option String) :
    Except Err GetResult :=
  if key ∈ generalRequirements then
    match rd.general_params.get key with
    | .ok v => .ok (.val v)
    | .error e => .error e
  else
    match name with
    | some n =>
      match alookup rd.pair_params n with
      | none => .error .keyError
      | some pp =>
        match pp.get key with
        | .ok v => .ok (.val v)
        | .error e => .error e
    | none =>
      if key = "history" then .ok (.hist rd.history) else .error .valueError

/-- `RunData.get` where the caller expects a plain value (every use inside
`run_config.py` does). -/
def RunData.getVal (rd : RunData) (key : String) (name : Option String) :
    Except Err Val :=
  match rd.get key name with
  | .ok (.val v) => .ok v
  | .ok (.hist _) => .error .typeError
  | .error e => .error e

/-- The persisted three-part document (run_data.py, `as_dictionary` /
`from_dictionary`; spec §6). -/
structure Document where
  general : List (String × Val)
  pairs : List (String × List (String × Val))
  history : List (String × Val)
deriving DecidableEq, Repr

/-- `RunData.as_dictionary` (run_data.py lines 182-214). -/
def RunData.as_dictionary (rd : RunData) : Document :=
  ⟨rd.general_params.get_as_dictionary,
   rd.pair_params.map (fun p => (p.1, p.2.get_as_dictionary)),
   rd.history.metadata⟩

/-- `RunData.from_dictionary` (run_data.py lines 216-228): bulk-loads the
general store and the history, then creates a fresh `PairParams` per pair name
of the document and bulk-loads it. -/
def RunData.from_dictionary (rd : RunData) (d : Document) : RunData :=
  { general_params := rd.general_params.set_from_dictionary d.general,
    history := rd.history.set_from_dictionary d.history,
    pair_params := d.pairs.foldl
      (fun acc p => dictSet acc p.1 ((PairParams.init p.1).set_from_dictionary p.2))
      rd.pair_params }

/-- Modelled from the spec: `pair_data.py` (class `PairData`) is not in the
repository snapshot.  A pair record carries a stable name and the site list
that `RunData.from_pair_data` reads via `pd.get('sites')`. -/
structure PairData where
  name : String
  sites : List Int
deriving DecidableEq, Repr

/-- `RunData.from_pair_data` (run_data.py lines 230-242): creates a fresh
`PairParams` keyed by the pair's name, loads its sites (and derived logging
filename), then applies the pair defaults. -/
def RunData.from_pair_data (rd : RunData) (pd : PairData) : RunData :=
  let pp := PairParams.set_to_defaults (PairParams.load_sites (PairParams.init pd.name) pd.sites)
  { rd with pair_params := dictSet rd.pair_params pd.name pp }

/-- Python `str()` of a stored value, as used to build directory path segments
(`'{}'.format(v)`).  Only the `vInt` and `vStr` renderings are exercised by the
claims. -/
def vstr : Val → String
  | .vInt i => toString i
  | .vRat q => toString q
  | .vStr s => s
  | .vIntList l => toString l
  | .vRatList l => toString l

/-- `DirectoryHelper` (directory_helper.py): a top directory plus the parameter
dictionary. -/
structure DirectoryHelper where
  top_dir : String
  param_dict : List (String × Val)
deriving DecidableEq, Repr

/-- `DirectoryHelper.__init__` (directory_helper.py lines 20-61): requires
`ensemble_num`, `iteration` and `phase` in the parameter dictionary, raising
`ValueError` (the spec's `ConfigurationError`) when one is missing. -/
def DirectoryHelper.make (top_dir : String) (pd : List (String × Val)) :
    Except Err DirectoryHelper :=
  if hasKey pd "ensemble_num" then
    if hasKey pd "iteration" then
      if hasKey pd "phase" then .ok ⟨top_dir, pd⟩
      else .error .valueError
    else .error .valueError
  else .error .valueError

/-- `DirectoryHelper.get_dir` (directory_helper.py lines 63-94).  The
`work_sample` level asserts the phase is convergence or production, then reads
`work_sample` from the dictionary (`KeyError`, the spec's `ConfigurationError`,
when it was omitted). -/
def DirectoryHelper.get_dir (dh : DirectoryHelper) (level : String) :
    Except Err String :=
  let pdict := dh.param_dict
  if level = "top" then .ok dh.top_dir
  else if level = "ensemble_num" then
    match alookup pdict "ensemble_num" with
    | none => .error .keyError
    | some en => .ok (dh.top_dir ++ "/mem_" ++ vstr en)
  else if level = "iteration" then
    match alookup pdict "ensemble_num", alookup pdict "iteration" with
    | some en, some it => .ok (dh.top_dir ++ "/mem_" ++ vstr en ++ "/" ++ vstr it)
    | _, _ => .error .keyError
  else if level = "phase" then
    match alookup pdict "ensemble_num", alookup pdict "iteration", alookup pdict "phase" with
    | some en, some it, some ph =>
      .ok (dh.top_dir ++ "/mem_" ++ vstr en ++ "/" ++ vstr it ++ "/" ++ vstr ph)
    | _, _, _ => .error .keyError
  else if level = "work_sample" then
    match alookup pdict "phase" with
    | none => .error .keyError
    | some ph =>
      if ph = .vStr "convergence" ∨ ph = .vStr "production" then
        match alookup pdict "ensemble_num", alookup pdict "iteration",
              alookup pdict "work_sample" with
        | some en, some it, some ws =>
          .ok (dh.top_dir ++ "/mem_" ++ vstr en ++ "/" ++ vstr it ++ "/" ++ vstr ph
               ++ "/" ++ vstr ws)
        | _, _, _ => .error .keyError
      else .error .assertionError
  else .error .valueError

/-- `DirectoryHelper.build_working_dir` (directory_helper.py lines 96-104):
resolves the phase directory, and for convergence/production also the
work-sample directory, creating them (directory creation itself is not part of
the tracked file state; only its failures are). -/
def DirectoryHelper.build_working_dir (dh : DirectoryHelper) : Except Err Unit :=
  match dh.get_dir "phase" with
  | .error e => .error e
  | .ok _ =>
    match alookup dh.param_dict "phase" with
    | none => .error .keyError
    | some ph =>
      if ph = .vStr "convergence" ∨ ph = .vStr "production" then
        match dh.get_dir "work_sample" with
        | .error e => .error e
        | .ok _ => .ok ()
      else .ok ()

/-- The directory resolution performed by `RunConfig.__change_directory`
(run_config.py lines 127-141) for a given parameter dictionary: construct the
helper, materialize the tree, and resolve the phase directory for training or
the work-sample directory otherwise. -/
def resolve_dir (top : String) (pdict : List (String × Val)) : Except Err String :=
  match DirectoryHelper.make top pdict with
  | .error e => .error e
  | .ok dh =>
    match dh.build_working_dir with
    | .error e => .error e
    | .ok _ =>
      match alookup pdict "phase" with
      | none => .error .keyError
      | some ph =>
        dh.get_dir (if ph = .vStr "training" then "phase" else "work_sample")

/-- The static part of a `RunConfig` (run_config.py, `__init__`): the tpr path,
the ensemble directory, the work-sample number and the restraint names loaded
from the pair-data file. -/
structure Cfg where
  tpr : String
  ens_dir : String
  work_sample : Int
  names : List String
deriving DecidableEq, Repr

/-- The mutable world of one ensemble member: the process working directory,
the set of existing files, the content of the persisted `state.json` document,
and the in-memory `RunData`. -/
structure St where
  cwd : String
  files : List String
  saved : Document
  rd : RunData
deriving DecidableEq, Repr

/-- The external collaborators of one `run()` step (spec §6): the resampler as
a stream of draws, the engine-reported alphas and targets per restraint name,
and the engine-reported end time of a convergence run.  `fuel` bounds the
training redraw loop, which Python leaves unbounded. -/
structure Env where
  resampler : Nat → List (String × ℚ)
  fuel : Nat
  engineAlphas : String → ℚ
  engineTargets : String → ℚ
  convergedTime : Val

/-- `RunData.save_config` (run_data.py lines 248-256): rewrite the persisted
document wholesale from the current metadata. -/
def save_config (st : St) : St :=
  { st with saved := RunData.as_dictionary st.rd }

/-- `RunConfig.__change_directory` (run_config.py lines 127-141): build the
parameter dictionary from the general store, add the work sample unless
training, materialize the directory tree and change into the phase directory
(training) or the work-sample directory (otherwise).  Errors carry the world
state at the moment of the raise. -/
def change_directory (cfg : Cfg) (st : St) : Except (Err × St) St :=
  match st.rd.getVal "phase" none with
  | .error e => .error (e, st)
  | .ok ph =>
    match DirectoryHelper.make cfg.ens_dir
        (if ph = .vStr "training" then st.rd.general_params.get_as_dictionary
         else dictSet st.rd.general_params.get_as_dictionary "work_sample"
           (.vInt cfg.work_sample)) with
    | .error e => .error (e, st)
    | .ok dh =>
      match dh.build_working_dir with
      | .error e => .error (e, st)
      | .ok _ =>
        match dh.get_dir (if ph = .vStr "training" then "phase" else "work_sample") with
        | .error e => .error (e, st)
        | .ok p => .ok { st with cwd := p }

/-- The checkpoint path `__move_cpt` computes for the current phase
(run_config.py lines 149-153). -/
def cptPath (cfg : Cfg) (en it ph : Val) : String :=
  if ph = .vStr "training" then
    cfg.ens_dir ++ "/mem_" ++ vstr en ++ "/" ++ vstr it ++ "/" ++ vstr ph ++ "/state.cpt"
  else
    cfg.ens_dir ++ "/mem_" ++ vstr en ++ "/" ++ vstr it ++ "/" ++ vstr ph ++ "/"
      ++ toString cfg.work_sample ++ "/state.cpt"

/-- The convergence checkpoint `__move_cpt` copies from when entering
production (run_config.py line 170). -/
def convCptPath (cfg : Cfg) (en it : Val) : String :=
  cfg.ens_dir ++ "/mem_" ++ vstr en ++ "/" ++ vstr it ++ "/convergence/"
    ++ toString cfg.work_sample ++ "/state.cpt"

/-- `RunConfig.__move_cpt` (run_config.py lines 143-171): if the checkpoint for
the current phase already exists, do nothing; otherwise for training and
convergence any iteration beyond 0 is rejected (`ValueError`) and iteration 0
needs nothing; for production the convergence checkpoint of the same iteration
and work sample is copied into the working directory (`FileNotFoundError` when
it is missing). -/
def move_cpt (cfg : Cfg) (st : St) : Except (Err × St) St :=
  match st.rd.getVal "iteration" none with
  | .error e => .error (e, st)
  | .ok it =>
    match st.rd.getVal "ensemble_num" none with
    | .error e => .error (e, st)
    | .ok en =>
      match st.rd.getVal "phase" none with
      | .error e => .error (e, st)
      | .ok ph =>
        if cptPath cfg en it ph ∈ st.files then .ok st
        else if ph = .vStr "training" ∨ ph = .vStr "convergence" then
          match it with
          | .vInt i => if i - 1 > -1 then .error (.valueError, st) else .ok st
          | _ => .error (.typeError, st)
        else
          if convCptPath cfg en it ∈ st.files then
            .ok { st with files := (st.cwd ++ "/state.cpt") :: st.files }
          else .error (.fileNotFound, st)

/-- The resampling loop of `RunConfig.__train` (run_config.py lines 176-178):
draw, and redraw while the history ledger contains the candidate's signature.
`i` is the index of the next draw and `fuel` bounds the number of draws (a
model artifact; Python loops until a fresh draw appears). -/
def re_sample_loop (resampler : Nat → List (String × ℚ)) (h : History) :
    Nat → Nat → Option (List (String × ℚ))
  | _, 0 => none
  | i, fuel + 1 =>
    let t := resampler i
    if h.check_targets t then re_sample_loop resampler h (i + 1) fuel else some t

/-- The per-name target assignment of `RunConfig.__train` (run_config.py lines
182-183): `set(name=name, target=targets[name])` for each restraint name.
Errors carry the partially mutated metadata. -/
def setTargetsLoop (names : List String) (targets : List (String × ℚ))
    (rd : RunData) : Except (Err × RunData) RunData :=
  match names with
  | [] => .ok rd
  | n :: rest =>
    match alookup targets n with
    | none => .error (.keyError, rd)
    | some t =>
      match rd.setP n "target" (.vRat t) with
      | .error e => .error (e, rd)
      | .ok rd1 => setTargetsLoop rest targets rd1

/-- The harvest loop of `RunConfig.__train` (run_config.py lines 222-232): for
each restraint name, store the engine-reported alpha and target into the pair
store. -/
def harvestLoop (env : Env) (names : List String) (rd : RunData) :
    Except (Err × RunData) RunData :=
  match names with
  | [] => .ok rd
  | n :: rest =>
    match rd.setP n "alpha" (.vRat (env.engineAlphas n)) with
    | .error e => .error (e, rd)
    | .ok rd1 =>
      match rd1.setP n "target" (.vRat (env.engineTargets n)) with
      | .error e => .error (e, rd1)
      | .ok rd2 => harvestLoop env rest rd2

/-- The checkpoint backup step of `RunConfig.__train` (run_config.py lines
188-194): when a checkpoint exists in the current working directory, it is
moved to `state.cpt.bak` (with a warning that the run will start over with new
targets). -/
def backup_cpt (st : St) : St :=
  if st.cwd ++ "/state.cpt" ∈ st.files then
    { st with files := (st.files.erase (st.cwd ++ "/state.cpt"))
        ++ [st.cwd ++ "/state.cpt" ++ ".bak"] }
  else st

/-- `RunConfig.__train` (run_config.py lines 173-234): resample until the
targets are fresh, store them, persist the document, back up any checkpoint in
the working directory (moving it to `state.cpt.bak` and starting over), carry
the checkpoint (`__move_cpt`), run the engine, harvest its alphas/targets, and
record the new history entry. -/
def train (env : Env) (cfg : Cfg) (st : St) : Except (Err × St) St :=
  match re_sample_loop env.resampler st.rd.history 0 env.fuel with
  | none => .error (.fuelExhausted, st)
  | some targets =>
    match setTargetsLoop cfg.names targets st.rd with
    | .error e => .error (e.1, { st with rd := e.2 })
    | .ok rd1 =>
      match move_cpt cfg (backup_cpt (save_config { st with rd := rd1 })) with
      | .error e => .error e
      | .ok st3 =>
        match harvestLoop env cfg.names st3.rd with
        | .error e => .error (e.1, { st3 with rd := e.2 })
        | .ok rd2 =>
          .ok { st3 with
            rd := { rd2 with history := rd2.history.new_entry env.engineAlphas targets } }

/-- `RunConfig.__converge` (run_config.py lines 236-256): carry the checkpoint,
run the engine, and record the engine-reported absolute end time into the
general `start_time`. -/
def converge (env : Env) (cfg : Cfg) (st : St) : Except (Err × St) St :=
  match move_cpt cfg st with
  | .error e => .error e
  | .ok st1 =>
    match st1.rd.setG "start_time" env.convergedTime with
    | .error e => .error (e, st1)
    | .ok rd1 => .ok { st1 with rd := rd1 }

/-- Python `+` on two stored values (`production_time + start_time`,
`iteration + 1`): defined on numbers, a `TypeError` otherwise. -/
def valAdd : Val → Val → Except Err Val
  | .vInt a, .vInt b => .ok (.vInt (a + b))
  | .vInt a, .vRat b => .ok (.vRat (a + b))
  | .vRat a, .vInt b => .ok (.vRat (a + b))
  | .vRat a, .vRat b => .ok (.vRat (a + b))
  | _, _ => .error .typeError

/-- `RunConfig.__production` (run_config.py lines 258-281): carry the
convergence checkpoint, compute the end time `production_time + start_time`,
and run the engine. -/
def production (_env : Env) (cfg : Cfg) (st : St) : Except (Err × St) St :=
  match move_cpt cfg st with
  | .error e => .error e
  | .ok st1 =>
    match st1.rd.getVal "production_time" none with
    | .error e => .error (e, st1)
    | .ok pt =>
      match st1.rd.getVal "start_time" none with
      | .error e => .error (e, st1)
      | .ok s0 =>
        match valAdd pt s0 with
        | .error e => .error (e, st1)
        | .ok _ => .ok st1

/-- `RunConfig.run` (run_config.py lines 283-302): read the phase, change into
the working directory, execute the phase body, advance the phase (training
always becomes convergence; convergence becomes production and production
wraps to training with `start_time = 0` and the iteration incremented only
when `set_next_phase` is true), and persist the document.  Any phase value
other than training or convergence takes the production branch, as in the
source's `else`. -/
def run (env : Env) (cfg : Cfg) (set_next_phase : Bool) (st : St) :
    Except (Err × St) St :=
  match st.rd.getVal "phase" none with
  | .error e => .error (e, st)
  | .ok ph =>
    match change_directory cfg st with
    | .error e => .error e
    | .ok st1 =>
      if ph = .vStr "training" then
        match train env cfg st1 with
        | .error e => .error e
        | .ok st2 =>
          match st2.rd.setG "phase" (.vStr "convergence") with
          | .error e => .error (e, st2)
          | .ok rd2 => .ok (save_config { st2 with rd := rd2 })
      else if ph = .vStr "convergence" then
        match converge env cfg st1 with
        | .error e => .error e
        | .ok st2 =>
          if set_next_phase then
            match st2.rd.setG "phase" (.vStr "production") with
            | .error e => .error (e, st2)
            | .ok rd2 => .ok (save_config { st2 with rd := rd2 })
          else .ok (save_config st2)
      else
        match production env cfg st1 with
        | .error e => .error e
        | .ok st2 =>
          if set_next_phase then
            match st2.rd.getVal "iteration" none with
            | .error e => .error (e, st2)
            | .ok it =>
              match valAdd it (.vInt 1) with
              | .error e => .error (e, st2)
              | .ok it1 =>
                match st2.rd.setG "phase" (.vStr "training") with
                | .error e => .error (e, st2)
                | .ok rda =>
                  match rda.setG "start_time" (.vInt 0) with
                  | .error e => .error (e, st2)
                  | .ok rdb =>
                    match rdb.setG "iteration" it1 with
                    | .error e => .error (e, st2)
                    | .ok rdc => .ok (save_config { st2 with rd := rdc })
          else .ok (save_config st2)

/-- Lookup of a general parameter directly in the general store (used to state
properties of `run`). -/
def getGeneral (st : St) (k : String) : Option Val :=
  alookup st.rd.general_params.metadata k

/-- The success state of a `run` outcome, with a fallback (used to state
closed corollaries of theorems about `run`). -/
def runOut (r : Except (Err × St) St) (d : St) : St :=
  match r with
  | .ok s => s
  | .error _ => d

/-- Whether an outcome is a success (no exception escaped). -/
def exceptIsOk {ε α : Type} : Except ε α → Bool
  | .ok _ => true
  | .error _ => false

/-- Concrete run configuration used by witnesses: ensemble member 1, work
sample 1, one restrained pair named `"p"`. -/
def cfgW : Cfg := ⟨"topol.tpr", "/ens", 1, ["p"]⟩

/-- Concrete collaborators used by witnesses: the resampler always draws
target 2 for pair `"p"`, the engine reports alpha 1/2 and target 2, and a
convergence run ends at time 77. -/
def envW : Env :=
  ⟨fun _ => [("p", 2)], 1, fun _ => (1 : ℚ) / 2, fun _ => 2, .vInt 77⟩

/-- A fresh training-phase world for member 1: default general parameters, one
pair `"p"`, empty history, no files on disk. -/
def stTrainW : St :=
  ⟨"/", [], ⟨[], [], []⟩, ⟨GeneralParams.init, [("p", PairParams.init "p")], ⟨[]⟩⟩⟩

/-- General parameters of a member sitting in the convergence phase of
iteration 0. -/
def genConvW : List (String × Val) :=
  dictSet generalDefaults "phase" (.vStr "convergence")

/-- A convergence-phase world: iteration 0, no files on disk. -/
def stConvW : St :=
  ⟨"/", [], ⟨[], [], []⟩, ⟨⟨"general", generalRequirements, genConvW⟩, [], ⟨[]⟩⟩⟩

/-- General parameters of a member sitting in the production phase of
iteration 0. -/
def genProdW : List (String × Val) :=
  dictSet generalDefaults "phase" (.vStr "production")

/-- A production-phase world where the production checkpoint of iteration 0 /
work sample 1 already exists but the convergence checkpoint does not. -/
def stProdSkipW : St :=
  ⟨"/", ["/ens/mem_1/0/production/1/state.cpt"], ⟨[], [], []⟩,
   ⟨⟨"general", generalRequirements, genProdW⟩, [], ⟨[]⟩⟩⟩

/-- A production-phase world with no checkpoints on disk at all, and a
non-trivial previously persisted document. -/
def stProdNoneW : St :=
  ⟨"/", [], ⟨[("x", .vInt 9)], [], []⟩,
   ⟨⟨"general", generalRequirements, genProdW⟩, [], ⟨[]⟩⟩⟩

/-- A training-phase world where a checkpoint already exists at the training
working directory of iteration 0. -/
def stTrainCptW : St :=
  ⟨"/", ["/ens/mem_1/0/training/state.cpt"], ⟨[], [], []⟩,
   ⟨GeneralParams.init, [("p", PairParams.init "p")], ⟨[]⟩⟩⟩

/-- A resampler whose first draw collides with the recorded history and whose
second draw is fresh. -/
def resamplerW : Nat → List (String × ℚ) :=
  fun k => if k = 0 then [("p", 3)] else [("p", 4)]

/-- A history ledger already containing the signature of the draw
`[("p", 3)]`. -/
def histW : History := ⟨[("3", .vRatList [(1 : ℚ) / 2])]⟩

/-- The working directory `__change_directory` switches to in the production
phase. -/
def productionDir (cfg : Cfg) (en it : Val) : String :=
  cfg.ens_dir ++ "/mem_" ++ vstr en ++ "/" ++ vstr it ++ "/"
    ++ vstr (.vStr "production") ++ "/" ++ vstr (.vInt cfg.work_sample)

/-- A small well-formed persisted document used by the round-trip witness. -/
def docW : Document :=
  ⟨[("ensemble_num", .vInt 2), ("iteration", .vInt 1), ("phase", .vStr "convergence")],
   [("p", [("sites", .vIntList [3673, 5636]), ("alpha", .vRat (1 / 2))]),
    ("q", [("sites", .vIntList [1, 2]), ("alpha", .vRat 0)])],
   [("2", .vRatList [(1 : ℚ) / 2])]⟩

theorem alookup_dictSet_self {α : Type} (m : List (String × α)) (k : String) (v : α) :
    alookup (dictSet m k v) k = some v := by
  induction m with
  | nil => simp [dictSet, alookup]
  | cons p rest ih =>
    obtain ⟨k1, v1⟩ := p
    by_cases h : k1 = k
    · simp [dictSet, h, alookup]
    · simp [dictSet, h, alookup, ih]

theorem alookup_dictSet_ne {α : Type} (m : List (String × α)) (k v k2)
    (h : k2 ≠ k) : alookup (dictSet m k v) k2 = alookup m k2 := by
  induction m with
  | nil => simp [dictSet, alookup, Ne.symm h]
  | cons p rest ih =>
    obtain ⟨k1, v1⟩ := p
    by_cases h1 : k1 = k
    · subst h1
      simp [dictSet, alookup, Ne.symm h]
    · by_cases h2 : k1 = k2
      · simp [dictSet, alookup, h1, h2, h]
      · simp [dictSet, alookup, h1, h2, ih]

theorem hasKey_false_dictSet {α : Type} (m : List (String × α)) (k v)
    (h : hasKey m k = false) : dictSet m k v = m ++ [(k, v)] := by
  induction m with
  | nil => simp [dictSet]
  | cons p rest ih =>
    obtain ⟨k1, v1⟩ := p
    by_cases h1 : k1 = k
    · simp [hasKey, h1] at h
    · simp [hasKey, h1] at h
      simp [dictSet, h1, ih h]

theorem hasKey_dictSet_self {α : Type} (m : List (String × α)) (k v) :
    hasKey (dictSet m k v) k = true := by
  induction m with
  | nil => simp [dictSet, hasKey]
  | cons p rest ih =>
    obtain ⟨k1, v1⟩ := p
    by_cases h : k1 = k
    · simp [dictSet, h, hasKey]
    · simp [dictSet, h, hasKey, ih]

theorem hasKey_of_alookup {α : Type} (m : List (String × α)) (k v)
    (h : alookup m k = some v) : hasKey m k = true := by
  induction m with
  | nil => simp [alookup] at h
  | cons p rest ih =>
    obtain ⟨k1, v1⟩ := p
    by_cases h1 : k1 = k
    · simp [hasKey, h1]
    · simp [alookup, h1] at h
      simp [hasKey, h1, ih h]

theorem alookup_none_of_hasKey_false {α : Type} (m : List (String × α)) (k)
    (h : hasKey m k = false) : alookup m k = none := by
  induction m with
  | nil => simp [alookup]
  | cons p rest ih =>
    obtain ⟨k1, v1⟩ := p
    by_cases h1 : k1 = k
    · simp [hasKey, h1] at h
    · simp [hasKey, h1] at h
      simp [alookup, h1, ih h]

theorem alookup_none_iff_not_mem {α : Type} (m : List (String × α)) (k : String) :
    alookup m k = none ↔ k ∉ m.map Prod.fst := by
  induction m with
  | nil => simp [alookup]
  | cons p rest ih =>
    obtain ⟨k1, v1⟩ := p
    by_cases h1 : k1 = k
    · subst h1
      simp [alookup]
    · constructor
      · intro h hm
        simp only [alookup, if_neg h1] at h
        simp only [List.map_cons] at hm
        rcases List.mem_cons.mp hm with hm1 | hm1
        · exact h1 hm1.symm
        · exact (ih.mp h) hm1
      · intro h
        simp only [alookup, if_neg h1]
        apply ih.mpr
        intro hm
        apply h
        simp only [List.map_cons]
        exact List.mem_cons_of_mem _ hm

theorem alookup_some_mem {α : Type} (m : List (String × α)) (k v)
    (h : alookup m k = some v) : (k, v) ∈ m := by
  induction m with
  | nil => simp [alookup] at h
  | cons p rest ih =>
    obtain ⟨k1, v1⟩ := p
    by_cases h1 : k1 = k
    · simp [alookup, h1] at h
      simp [h1, h]
    · simp [alookup, h1] at h
      simp [ih h]

theorem mem_alookup {α : Type} (m : List (String × α)) (k v)
    (hnd : (m.map Prod.fst).Nodup) (h : (k, v) ∈ m) : alookup m k = some v := by
  induction m with
  | nil => simp at h
  | cons p rest ih =>
    obtain ⟨k1, v1⟩ := p
    rw [List.map_cons, List.nodup_cons] at hnd
    rcases List.mem_cons.mp h with h1 | h1
    · have h2 : k = k1 ∧ v = v1 := by
        constructor
        · exact congrArg Prod.fst h1
        · exact congrArg Prod.snd h1
      obtain ⟨h2, h3⟩ := h2
      subst h2
      subst h3
      simp [alookup]
    · have hkk : ¬k1 = k := by
        intro hc
        subst hc
        exact hnd.1 (List.mem_map.mpr ⟨(k1, v), h1, rfl⟩)
      simp [alookup, hkk, ih hnd.2 h1]

theorem alookup_perm {α : Type} (m1 m2 : List (String × α))
    (hp : m1.Perm m2) (hnd : (m1.map Prod.fst).Nodup) (k : String) :
    alookup m1 k = alookup m2 k := by
  cases h1 : alookup m1 k with
  | some v =>
    have hm : (k, v) ∈ m2 := hp.mem_iff.mp (alookup_some_mem m1 k v h1)
    have hnd2 : (m2.map Prod.fst).Nodup := (hp.map Prod.fst).nodup_iff.mp hnd
    exact (mem_alookup m2 k v hnd2 hm).symm
  | none =>
    have hnm : k ∉ m1.map Prod.fst := (alookup_none_iff_not_mem m1 k).mp h1
    have hnm2 : k ∉ m2.map Prod.fst := fun hc => hnm ((hp.map Prod.fst).mem_iff.mpr hc)
    exact ((alookup_none_iff_not_mem m2 k).mpr hnm2).symm

/-- C3: `History.new_entry` is a no-op when the signature is already recorded
(so recording twice equals recording once and never overwrites), and otherwise
appends exactly one entry mapping the signature to the alphas of the pair
names in ascending sorted order. -/
theorem new_entry_spec (h : History) (alphas : String → ℚ)
    (targets : List (String × ℚ)) :
    (h.new_entry alphas targets =
       if hasKey h.metadata (target_key targets) then h
       else ⟨h.metadata ++
         [(target_key targets, .vRatList ((sorted_keys targets).map alphas))]⟩)
    ∧ (h.new_entry alphas targets).new_entry alphas targets
        = h.new_entry alphas targets := by
  constructor
  · by_cases hk : hasKey h.metadata (target_key targets)
    · simp [History.new_entry, hk]
    · simp only [Bool.not_eq_true] at hk
      simp [History.new_entry, hk, hasKey_false_dictSet _ _ _ hk]
  · by_cases hk : hasKey h.metadata (target_key targets)
    · simp [History.new_entry, hk]
    · simp only [Bool.not_eq_true] at hk
      simp [History.new_entry, hk, hasKey_dictSet_self]

/-- C5: the canonical target-set signature depends only on the contents of the
target mapping, not on its insertion order. -/
theorem target_key_order_independent (t1 t2 : List (String × ℚ))
    (hp : t1.Perm t2) (hnd : (t1.map Prod.fst).Nodup) :
    target_key t1 = target_key t2 := by
  have hk : (t1.map Prod.fst).Perm (t2.map Prod.fst) := hp.map Prod.fst
  have hs : sorted_keys t1 = sorted_keys t2 := by
    apply List.eq_of_perm_of_sorted (r := fun a b : String => a ≤ b)
    · exact (List.perm_insertionSort _ _).trans
        (hk.trans (List.perm_insertionSort _ _).symm)
    · exact List.sorted_insertionSort _ _
    · exact List.sorted_insertionSort _ _
  have hl : (fun k => pyFloatStr ((alookup t1 k).getD 0))
      = (fun k => pyFloatStr ((alookup t2 k).getD 0)) :=
    funext fun k => by rw [alookup_perm t1 t2 hp hnd k]
  unfold target_key
  rw [hs, hl]

/-- Witness for C5 at a concrete pair of permuted mappings. -/
theorem target_key_order_independent_witness :
    target_key [("b", (2 : ℚ)), ("a", 1)] = target_key [("a", (1 : ℚ)), ("b", 2)] :=
  target_key_order_independent [("b", 2), ("a", 1)] [("a", 1), ("b", 2)]
    (by decide) (by decide)

/-- C10: `RunData.from_pair_data` creates a pair entry keyed by the pair's
name whose sites are the pair's site list, whose logging filename is the name
followed by `".log"`, and whose alpha and target are the documented defaults
0.0 and 3.0. -/
theorem from_pair_data_spec (rd : RunData) (pd : PairData) :
    ∃ pp, alookup (rd.from_pair_data pd).pair_params pd.name = some pp
      ∧ alookup pp.metadata "sites" = some (.vIntList pd.sites)
      ∧ alookup pp.metadata "logging_filename" = some (.vStr (pd.name ++ ".log"))
      ∧ alookup pp.metadata "alpha" = some (.vRat 0)
      ∧ alookup pp.metadata "target" = some (.vRat 3) := by
  refine ⟨_, alookup_dictSet_self _ _ _, ?_, ?_, ?_, ?_⟩
  · rfl
  · rfl
  · rfl
  · rfl

/-- C8 (amended): `RunData.get` serves any key of the general requirements
from the general store, ignoring a supplied pair name entirely, and fails with
the routing `ValueError` exactly for a key that is neither general nor
`"history"` when no name is given. -/
theorem run_data_get_routing (rd : RunData) (key : String) :
    (key ∉ generalRequirements → key ≠ "history" →
       rd.get key none = .error .valueError)
    ∧ (key ∈ generalRequirements → ∀ n, rd.get key (some n) = rd.get key none) := by
  constructor
  · intro h1 h2
    simp [RunData.get, h1, h2]
  · intro h1 n
    simp [RunData.get, h1]

/-- Witness for C8 (amended) at concrete keys on a fresh `RunData`. -/
theorem run_data_get_routing_witness :
    RunData.init.get "alpha" none = .error .valueError
    ∧ RunData.init.get "iteration" (some "p") = RunData.init.get "iteration" none :=
  ⟨(run_data_get_routing RunData.init "alpha").1 (by decide) (by decide),
   (run_data_get_routing RunData.init "iteration").2 (by decide) "p"⟩

/-- Counterexample for C8 as stated: requesting the general-only key
`"iteration"` together with a pair name does not fail with a routing error; it
returns the general value. -/
theorem run_data_get_general_with_name_cex :
    RunData.init.get "iteration" (some "p") = .ok (.val (.vInt 0)) := by
  decide

/-- C9: for a parameter dictionary holding the three required keys, directory
resolution for convergence or production without a work sample fails (the
`KeyError` that the spec's taxonomy calls `ConfigurationError`); for training
the work sample is not needed and the resolved path is
`<top>/mem_<ensembleNum>/<iteration>/training`, while convergence/production
with a work sample resolve to the same grammar extended by
`/<workSample>`. -/
theorem directory_resolution_spec (top : String) (pdict : List (String × Val))
    (en it ph : Val)
    (hen : alookup pdict "ensemble_num" = some en)
    (hit : alookup pdict "iteration" = some it)
    (hph : alookup pdict "phase" = some ph) :
    ((ph = .vStr "convergence" ∨ ph = .vStr "production") →
       hasKey pdict "work_sample" = false →
       resolve_dir top pdict = .error .keyError)
    ∧ (ph = .vStr "training" →
       resolve_dir top pdict
         = .ok (top ++ "/mem_" ++ vstr en ++ "/" ++ vstr it ++ "/" ++ "training"))
    ∧ (∀ ws, (ph = .vStr "convergence" ∨ ph = .vStr "production") →
       alookup pdict "work_sample" = some ws →
       resolve_dir top pdict
         = .ok (top ++ "/mem_" ++ vstr en ++ "/" ++ vstr it ++ "/" ++ vstr ph
                ++ "/" ++ vstr ws)) := by
  have hmk : DirectoryHelper.make top pdict = .ok ⟨top, pdict⟩ := by
    simp [DirectoryHelper.make, hasKey_of_alookup _ _ _ hen,
      hasKey_of_alookup _ _ _ hit, hasKey_of_alookup _ _ _ hph]
  refine ⟨?_, ?_, ?_⟩
  · intro hcp hws
    have hnone : alookup pdict "work_sample" = none :=
      alookup_none_of_hasKey_false _ _ hws
    have hne : ¬ph = .vStr "training" := by
      rcases hcp with h | h <;> subst h <;> decide
    simp [resolve_dir, hmk, DirectoryHelper.build_working_dir,
      DirectoryHelper.get_dir, hen, hit, hph, hcp, hnone, hne]
  · intro htr
    subst htr
    simp [resolve_dir, hmk, DirectoryHelper.build_working_dir,
      DirectoryHelper.get_dir, hen, hit, hph, vstr]
  · intro ws hcp hws
    have hne : ¬(Val.vStr "training" = .vStr "convergence"
        ∨ Val.vStr "training" = .vStr "production") := by decide
    have hnt : ¬ph = .vStr "training" := by
      intro hc
      subst hc
      exact hne hcp
    simp [resolve_dir, hmk, DirectoryHelper.build_working_dir,
      DirectoryHelper.get_dir, hen, hit, hph, hcp, hws, hnt]

/-- Witness for C9: a convergence dictionary without a work sample fails to
resolve, while a training dictionary resolves without one. -/
theorem directory_resolution_spec_witness :
    resolve_dir "/e" [("ensemble_num", .vInt 1), ("iteration", .vInt 0),
      ("phase", .vStr "convergence")] = .error .keyError
    ∧ resolve_dir "/e" [("ensemble_num", .vInt 1), ("iteration", .vInt 0),
      ("phase", .vStr "training")]
      = .ok ("/e" ++ "/mem_" ++ vstr (.vInt 1) ++ "/" ++ vstr (.vInt 0) ++ "/"
             ++ "training") :=
  ⟨(directory_resolution_spec "/e" _ (.vInt 1) (.vInt 0) (.vStr "convergence")
      (by decide) (by decide) (by decide)).1 (by decide) (by decide),
   (directory_resolution_spec "/e" _ (.vInt 1) (.vInt 0) (.vStr "training")
      (by decide) (by decide) (by decide)).2.1 (by decide)⟩

theorem hasKey_append {α : Type} (m1 m2 : List (String × α)) (k : String) :
    hasKey (m1 ++ m2) k = (hasKey m1 k || hasKey m2 k) := by
  induction m1 with
  | nil => simp [hasKey]
  | cons p rest ih =>
    obtain ⟨k1, v1⟩ := p
    by_cases h : k1 = k
    · simp [hasKey, h]
    · simp [hasKey, h, ih]

theorem from_dict_pairs_fold (ps : List (String × List (String × Val)))
    (acc : List (String × MetaData))
    (hfresh : ∀ p ∈ ps, hasKey acc p.1 = false)
    (hnd : (ps.map Prod.fst).Nodup) :
    ps.foldl
      (fun a p => dictSet a p.1 ((PairParams.init p.1).set_from_dictionary p.2)) acc
      = acc ++ ps.map (fun p => (p.1, (PairParams.init p.1).set_from_dictionary p.2)) := by
  induction ps generalizing acc with
  | nil => simp
  | cons p rest ih =>
    obtain ⟨n, d⟩ := p
    rw [List.map_cons, List.nodup_cons] at hnd
    have h1 : hasKey acc n = false := hfresh (n, d) (List.mem_cons_self _ _)
    rw [List.foldl_cons, hasKey_false_dictSet _ _ _ h1]
    rw [ih _ ?_ hnd.2]
    · simp
    · intro q hq
      rw [hasKey_append]
      have h2 : hasKey acc q.1 = false := hfresh q (List.mem_cons_of_mem _ hq)
      have h3 : ¬n = q.1 := by
        intro hc
        exact hnd.1 (hc ▸ List.mem_map.mpr ⟨q, hq, rfl⟩)
      simp [h2, hasKey, h3]

/-- C4: loading a well-formed three-part document into a fresh `RunData` via
`from_dictionary` and dumping it via `as_dictionary` reproduces the document
exactly (well-formed meaning in particular that the pair names, being keys of
a Python dict, are distinct). -/
theorem round_trip_from_dictionary (d : Document)
    (hnd : (d.pairs.map Prod.fst).Nodup) :
    RunData.as_dictionary (RunData.from_dictionary RunData.init d) = d := by
  obtain ⟨g, ps, h⟩ := d
  simp only [RunData.from_dictionary, RunData.init, RunData.as_dictionary]
  rw [from_dict_pairs_fold ps [] (fun p hp => rfl) hnd]
  simp only [List.nil_append, List.map_map]
  have hfun : ((fun p : String × MetaData => (p.1, p.2.get_as_dictionary)) ∘
      (fun p : String × List (String × Val) =>
        (p.1, (PairParams.init p.1).set_from_dictionary p.2)))
      = fun p : String × List (String × Val) => p := funext fun p => rfl
  rw [hfun]
  simp [MetaData.get_as_dictionary, MetaData.set_from_dictionary, History.set_from_dictionary]

/-- Witness for C4 at a concrete two-pair document. -/
theorem round_trip_from_dictionary_witness :
    RunData.as_dictionary (RunData.from_dictionary RunData.init docW) = docW :=
  round_trip_from_dictionary docW (by decide)

theorem re_sample_loop_fresh (resampler : Nat → List (String × ℚ)) (h : History) :
    ∀ fuel i t, re_sample_loop resampler h i fuel = some t →
      h.check_targets t = false := by
  intro fuel
  induction fuel with
  | zero => intro i t ht; simp [re_sample_loop] at ht
  | succ n ih =>
    intro i t ht
    simp only [re_sample_loop] at ht
    by_cases hc : h.check_targets (resampler i)
    · rw [if_pos hc] at ht
      exact ih _ _ ht
    · rw [if_neg hc] at ht
      obtain rfl := Option.some.inj ht
      exact Bool.not_eq_true _ ▸ hc

theorem re_sample_loop_terminates (resampler : Nat → List (String × ℚ))
    (h : History) :
    ∀ n i, h.check_targets (resampler (i + n)) = false →
      ∃ t, re_sample_loop resampler h i (n + 1) = some t := by
  intro n
  induction n with
  | zero =>
    intro i hi
    refine ⟨resampler i, ?_⟩
    simp only [re_sample_loop]
    rw [if_neg (by simpa using hi)]
  | succ n ih =>
    intro i hi
    by_cases hc : h.check_targets (resampler i)
    · obtain ⟨t, ht⟩ := ih (i + 1) (by
        have : i + 1 + n = i + (n + 1) := by omega
        rw [this]
        exact hi)
      exact ⟨t, by simp only [re_sample_loop, if_pos hc]; exact ht⟩
    · exact ⟨resampler i, by simp only [re_sample_loop]; rw [if_neg hc]⟩

/-- C2: the training-phase resampling loop of `RunConfig.__train` redraws
while the ledger contains the candidate's signature, so as soon as the
resampler eventually yields a fresh draw, the loop delivers a target set whose
signature is absent from the ledger. -/
theorem training_redraw_until_fresh (resampler : Nat → List (String × ℚ))
    (h : History) (n : Nat)
    (hfresh : h.check_targets (resampler n) = false) :
    ∃ t, re_sample_loop resampler h 0 (n + 1) = some t
      ∧ h.check_targets t = false := by
  obtain ⟨t, ht⟩ := re_sample_loop_terminates resampler h n 0 (by simpa using hfresh)
  exact ⟨t, ht, re_sample_loop_fresh resampler h _ _ _ ht⟩

/-- Witness for C2: the first draw collides with the recorded history, the
second is fresh, and the loop indeed delivers a fresh target set. -/
theorem training_redraw_until_fresh_witness :
    ∃ t, re_sample_loop resamplerW histW 0 2 = some t
      ∧ histW.check_targets t = false :=
  training_redraw_until_fresh resamplerW histW 1 (by decide)

theorem getVal_general (rd : RunData) (k : String) (hk : k ∈ generalRequirements) :
    rd.getVal k none = (match alookup rd.general_params.metadata k with
      | some v => Except.ok v
      | none => Except.error Err.keyError) := by
  unfold RunData.getVal RunData.get MetaData.get
  rw [if_pos hk]
  cases alookup rd.general_params.metadata k <;> rfl

theorem setG_general (rd : RunData) (k : String) (v : Val)
    (hk : k ∈ generalRequirements) :
    rd.setG k v = .ok { rd with general_params := rd.general_params.set k v } := by
  unfold RunData.setG
  rw [if_pos hk]

theorem change_directory_ok (cfg : Cfg) (st st1 : St)
    (h : change_directory cfg st = .ok st1) :
    st1.rd = st.rd ∧ st1.saved = st.saved ∧ st1.files = st.files := by
  unfold change_directory at h
  repeat' split at h
  all_goals first
    | exact Except.noConfusion h
    | (obtain rfl := Except.ok.inj h; exact ⟨rfl, rfl, rfl⟩)

theorem move_cpt_ok (cfg : Cfg) (st st1 : St)
    (h : move_cpt cfg st = .ok st1) :
    st1.rd = st.rd ∧ st1.saved = st.saved ∧ st1.cwd = st.cwd := by
  unfold move_cpt at h
  repeat' split at h
  all_goals first
    | exact Except.noConfusion h
    | (obtain rfl := Except.ok.inj h; exact ⟨rfl, rfl, rfl⟩)

theorem setP_ok (rd : RunData) (n k : String) (v : Val) (rd1 : RunData)
    (h : rd.setP n k v = .ok rd1) :
    rd1.general_params = rd.general_params ∧ rd1.history = rd.history := by
  unfold RunData.setP at h
  repeat' split at h
  all_goals first
    | exact Except.noConfusion h
    | (obtain rfl := Except.ok.inj h; exact ⟨rfl, rfl⟩)

theorem setTargetsLoop_ok (names : List String) (targets : List (String × ℚ)) :
    ∀ rd rd1, setTargetsLoop names targets rd = .ok rd1 →
      rd1.general_params = rd.general_params ∧ rd1.history = rd.history := by
  induction names with
  | nil =>
    intro rd rd1 h
    simp only [setTargetsLoop] at h
    obtain rfl := Except.ok.inj h
    exact ⟨rfl, rfl⟩
  | cons n rest ih =>
    intro rd rd1 h
    simp only [setTargetsLoop] at h
    split at h
    · exact Except.noConfusion h
    · split at h
      · exact Except.noConfusion h
      · next rd2 hs =>
          obtain ⟨h1, h2⟩ := setP_ok _ _ _ _ _ hs
          obtain ⟨h3, h4⟩ := ih _ _ h
          exact ⟨h3.trans h1, h4.trans h2⟩

theorem harvestLoop_ok (env : Env) (names : List String) :
    ∀ rd rd1, harvestLoop env names rd = .ok rd1 →
      rd1.general_params = rd.general_params ∧ rd1.history = rd.history := by
  induction names with
  | nil =>
    intro rd rd1 h
    simp only [harvestLoop] at h
    obtain rfl := Except.ok.inj h
    exact ⟨rfl, rfl⟩
  | cons n rest ih =>
    intro rd rd1 h
    simp only [harvestLoop] at h
    split at h
    · exact Except.noConfusion h
    · next rda hsa =>
        split at h
        · exact Except.noConfusion h
        · next rdb hsb =>
            obtain ⟨h1, h2⟩ := setP_ok _ _ _ _ _ hsa
            obtain ⟨h3, h4⟩ := setP_ok _ _ _ _ _ hsb
            obtain ⟨h5, h6⟩ := ih _ _ h
            exact ⟨(h5.trans h3).trans h1, (h6.trans h4).trans h2⟩

theorem backup_cpt_rd (st : St) :
    (backup_cpt st).rd = st.rd ∧ (backup_cpt st).saved = st.saved := by
  unfold backup_cpt
  split
  · exact ⟨rfl, rfl⟩
  · exact ⟨rfl, rfl⟩

theorem train_ok (env : Env) (cfg : Cfg) (st st2 : St)
    (h : train env cfg st = .ok st2) :
    st2.rd.general_params = st.rd.general_params := by
  unfold train at h
  split at h
  · exact Except.noConfusion h
  · split at h
    · exact Except.noConfusion h
    · next rd1 hts =>
        split at h
        · exact Except.noConfusion h
        · next st3 hmv =>
            split at h
            · exact Except.noConfusion h
            · next rd2 hhv =>
                obtain rfl := Except.ok.inj h
                obtain ⟨hg, _⟩ := setTargetsLoop_ok _ _ _ _ hts
                obtain ⟨hm, _, _⟩ := move_cpt_ok _ _ _ hmv
                obtain ⟨hh, _⟩ := harvestLoop_ok _ _ _ _ hhv
                rw [hh, hm, (backup_cpt_rd _).1]
                exact hg

theorem converge_ok (env : Env) (cfg : Cfg) (st st2 : St)
    (h : converge env cfg st = .ok st2) :
    st2.rd.general_params.metadata
      = dictSet st.rd.general_params.metadata "start_time" env.convergedTime := by
  unfold converge at h
  split at h
  · exact Except.noConfusion h
  · next st1 hmv =>
      split at h
      · next e hsg =>
          rw [setG_general _ _ _ (by decide)] at hsg
          exact Except.noConfusion hsg
      · next rd1 hsg =>
          rw [setG_general _ _ _ (by decide)] at hsg
          obtain rfl := Except.ok.inj hsg
          obtain rfl := Except.ok.inj h
          obtain ⟨hm, _, _⟩ := move_cpt_ok _ _ _ hmv
          rw [show ({ st1 with rd := _ } : St).rd.general_params.metadata
            = dictSet st1.rd.general_params.metadata "start_time" env.convergedTime
            from rfl]
          rw [hm]

theorem production_ok (env : Env) (cfg : Cfg) (st st1 : St)
    (h : production env cfg st = .ok st1) :
    st1.rd = st.rd := by
  unfold production at h
  split at h
  · exact Except.noConfusion h
  · next stx hmv =>
      repeat' split at h
      all_goals first
        | exact Except.noConfusion h
        | (obtain rfl := Except.ok.inj h; exact (move_cpt_ok _ _ _ hmv).1)

theorem getVal_of_getGeneral (st : St) (k : String) (v : Val)
    (hk : k ∈ generalRequirements) (h : getGeneral st k = some v) :
    st.rd.getVal k none = .ok v := by
  rw [getVal_general st.rd k hk]
  unfold getGeneral at h
  rw [h]

theorem run_training_case (env : Env) (cfg : Cfg) (b : Bool) (st st1 : St)
    (hph : getGeneral st "phase" = some (.vStr "training"))
    (h : run env cfg b st = .ok st1) :
    getGeneral st1 "phase" = some (.vStr "convergence")
    ∧ getGeneral st1 "iteration" = getGeneral st "iteration" := by
  unfold run at h
  split at h
  · exact Except.noConfusion h
  · next ph hpheq =>
      have hphv : ph = .vStr "training" :=
        Except.ok.inj
          (hpheq.symm.trans (getVal_of_getGeneral st "phase" _ (by decide) hph))
      subst hphv
      split at h
      · exact Except.noConfusion h
      · next stcd hcd =>
          rw [if_pos rfl] at h
          split at h
          · exact Except.noConfusion h
          · next st2 htr =>
              split at h
              · next e hsg =>
                  rw [setG_general _ _ _ (by decide)] at hsg
                  exact Except.noConfusion hsg
              · next rd2 hsg =>
                  rw [setG_general _ _ _ (by decide)] at hsg
                  obtain rfl := Except.ok.inj hsg
                  obtain rfl := Except.ok.inj h
                  obtain ⟨hcd1, _, _⟩ := change_directory_ok _ _ _ hcd
                  have htg := train_ok _ _ _ _ htr
                  constructor
                  · exact alookup_dictSet_self _ _ _
                  · show alookup
                      (dictSet st2.rd.general_params.metadata "phase" (.vStr "convergence"))
                      "iteration" = getGeneral st "iteration"
                    rw [alookup_dictSet_ne _ _ _ _ (by decide), htg, hcd1]
                    rfl

theorem run_convergence_case (env : Env) (cfg : Cfg) (b : Bool) (st st1 : St)
    (hph : getGeneral st "phase" = some (.vStr "convergence"))
    (h : run env cfg b st = .ok st1) :
    getGeneral st1 "phase" = some (.vStr (if b then "production" else "convergence"))
    ∧ getGeneral st1 "iteration" = getGeneral st "iteration" := by
  unfold run at h
  split at h
  · exact Except.noConfusion h
  · next ph hpheq =>
      have hphv : ph = .vStr "convergence" :=
        Except.ok.inj
          (hpheq.symm.trans (getVal_of_getGeneral st "phase" _ (by decide) hph))
      subst hphv
      split at h
      · exact Except.noConfusion h
      · next stcd hcd =>
          rw [if_neg (by decide), if_pos rfl] at h
          split at h
          · exact Except.noConfusion h
          · next st2 hcv =>
              obtain ⟨hcd1, _, _⟩ := change_directory_ok _ _ _ hcd
              have hcvm := converge_ok _ _ _ _ hcv
              rw [hcd1] at hcvm
              cases b with
              | true =>
                rw [if_pos rfl] at h
                split at h
                · next e hsg =>
                    rw [setG_general _ _ _ (by decide)] at hsg
                    exact Except.noConfusion hsg
                · next rd2 hsg =>
                    rw [setG_general _ _ _ (by decide)] at hsg
                    obtain rfl := Except.ok.inj hsg
                    obtain rfl := Except.ok.inj h
                    constructor
                    · exact alookup_dictSet_self _ _ _
                    · show alookup
                        (dictSet st2.rd.general_params.metadata "phase" (.vStr "production"))
                        "iteration" = getGeneral st "iteration"
                      rw [alookup_dictSet_ne _ _ _ _ (by decide), hcvm,
                        alookup_dictSet_ne _ _ _ _ (by decide)]
                      rfl
              | false =>
                rw [if_neg (by decide)] at h
                obtain rfl := Except.ok.inj h
                constructor
                · show alookup st2.rd.general_params.metadata "phase"
                    = some (.vStr "convergence")
                  rw [hcvm, alookup_dictSet_ne _ _ _ _ (by decide)]
                  exact hph
                · show alookup st2.rd.general_params.metadata "iteration"
                    = getGeneral st "iteration"
                  rw [hcvm, alookup_dictSet_ne _ _ _ _ (by decide)]
                  rfl

theorem run_production_case (env : Env) (cfg : Cfg) (b : Bool) (st st1 : St)
    (hph : getGeneral st "phase" = some (.vStr "production"))
    (h : run env cfg b st = .ok st1) :
    (b = true → getGeneral st1 "phase" = some (.vStr "training")
       ∧ getGeneral st1 "start_time" = some (.vInt 0)
       ∧ ∀ i : Int, getGeneral st "iteration" = some (.vInt i) →
           getGeneral st1 "iteration" = some (.vInt (i + 1)))
    ∧ (b = false → getGeneral st1 "phase" = some (.vStr "production")
       ∧ getGeneral st1 "iteration" = getGeneral st "iteration") := by
  unfold run at h
  split at h
  · exact Except.noConfusion h
  · next ph hpheq =>
      have hphv : ph = .vStr "production" :=
        Except.ok.inj
          (hpheq.symm.trans (getVal_of_getGeneral st "phase" _ (by decide) hph))
      subst hphv
      split at h
      · exact Except.noConfusion h
      · next stcd hcd =>
          rw [if_neg (by decide), if_neg (by decide)] at h
          split at h
          · exact Except.noConfusion h
          · next st2 hpr =>
              obtain ⟨hcd1, _, _⟩ := change_directory_ok _ _ _ hcd
              have hprm := production_ok _ _ _ _ hpr
              rw [hcd1] at hprm
              cases b with
              | true =>
                rw [if_pos rfl] at h
                constructor
                swap
                · intro hb
                  exact absurd hb (by decide)
                intro _
                split at h
                · exact Except.noConfusion h
                · next it hite =>
                    split at h
                    · exact Except.noConfusion h
                    · next it1 hadd =>
                        split at h
                        · next e hsg =>
                            rw [setG_general _ _ _ (by decide)] at hsg
                            exact Except.noConfusion hsg
                        · next rda hsga =>
                            rw [setG_general _ _ _ (by decide)] at hsga
                            obtain rfl := Except.ok.inj hsga
                            split at h
                            · next e hsg =>
                                rw [setG_general _ _ _ (by decide)] at hsg
                                exact Except.noConfusion hsg
                            · next rdb hsgb =>
                                rw [setG_general _ _ _ (by decide)] at hsgb
                                obtain rfl := Except.ok.inj hsgb
                                split at h
                                · next e hsg =>
                                    rw [setG_general _ _ _ (by decide)] at hsg
                                    exact Except.noConfusion hsg
                                · next rdc hsgc =>
                                    rw [setG_general _ _ _ (by decide)] at hsgc
                                    obtain rfl := Except.ok.inj hsgc
                                    obtain rfl := Except.ok.inj h
                                    refine ⟨?_, ?_, ?_⟩
                                    · simp only [getGeneral, save_config, MetaData.set]
                                      rw [alookup_dictSet_ne _ _ _ _ (by decide),
                                        alookup_dictSet_ne _ _ _ _ (by decide)]
                                      exact alookup_dictSet_self _ _ _
                                    · simp only [getGeneral, save_config, MetaData.set]
                                      rw [alookup_dictSet_ne _ _ _ _ (by decide)]
                                      exact alookup_dictSet_self _ _ _
                                    · intro i hi
                                      have hgv : st2.rd.getVal "iteration" none
                                          = .ok (.vInt i) := by
                                        rw [getVal_general st2.rd "iteration" (by decide),
                                          hprm]
                                        unfold getGeneral at hi
                                        rw [hi]
                                      have hitv : it = .vInt i :=
                                        Except.ok.inj (hite.symm.trans hgv)
                                      subst hitv
                                      have hadd1 : it1 = .vInt (i + 1) :=
                                        (Except.ok.inj hadd).symm
                                      subst hadd1
                                      simp only [getGeneral, save_config, MetaData.set]
                                      exact alookup_dictSet_self _ _ _
              | false =>
                rw [if_neg (by decide)] at h
                obtain rfl := Except.ok.inj h
                constructor
                · intro hb
                  exact absurd hb (by decide)
                · intro _
                  constructor
                  · show alookup st2.rd.general_params.metadata "phase"
                      = some (.vStr "production")
                    rw [hprm]
                    exact hph
                  · show alookup st2.rd.general_params.metadata "iteration"
                      = getGeneral st "iteration"
                    rw [hprm]
                    rfl

/-- C1 (amended): a successful `run()` advances training to convergence
unconditionally, while convergence advances to production and production wraps
to training (with `start_time = 0` and the iteration incremented by exactly 1)
only when `set_next_phase` is true; with the default `set_next_phase = False`
the convergence and production phases are left unchanged, and the iteration
changes on no edge other than the production wrap. -/
theorem run_phase_cycle (env : Env) (cfg : Cfg) (b : Bool) (st st1 : St)
    (h : run env cfg b st = .ok st1) :
    (getGeneral st "phase" = some (.vStr "training") →
       getGeneral st1 "phase" = some (.vStr "convergence")
       ∧ getGeneral st1 "iteration" = getGeneral st "iteration")
    ∧ (getGeneral st "phase" = some (.vStr "convergence") →
       getGeneral st1 "phase" = some (.vStr (if b then "production" else "convergence"))
       ∧ getGeneral st1 "iteration" = getGeneral st "iteration")
    ∧ (getGeneral st "phase" = some (.vStr "production") →
       (b = true → getGeneral st1 "phase" = some (.vStr "training")
          ∧ getGeneral st1 "start_time" = some (.vInt 0)
          ∧ ∀ i : Int, getGeneral st "iteration" = some (.vInt i) →
              getGeneral st1 "iteration" = some (.vInt (i + 1)))
       ∧ (b = false → getGeneral st1 "phase" = some (.vStr "production")
          ∧ getGeneral st1 "iteration" = getGeneral st "iteration")) :=
  ⟨fun hph => run_training_case env cfg b st st1 hph h,
   fun hph => run_convergence_case env cfg b st st1 hph h,
   fun hph => run_production_case env cfg b st st1 hph h⟩

/-- Witness for C1 (amended): a concrete successful training run ends in the
convergence phase with the iteration unchanged. -/
theorem run_phase_cycle_witness :
    getGeneral (runOut (run envW cfgW true stTrainW) stTrainW) "phase"
      = some (.vStr "convergence")
    ∧ getGeneral (runOut (run envW cfgW true stTrainW) stTrainW) "iteration"
      = getGeneral stTrainW "iteration" :=
  (run_phase_cycle envW cfgW true stTrainW
    (runOut (run envW cfgW true stTrainW) stTrainW) (by rfl)).1 (by decide)

/-- Counterexample for C1 as stated: a `run()` invocation from the convergence
phase with the default `set_next_phase = False` completes successfully but
still ends in the convergence phase, not production. -/
theorem run_convergence_default_stays_cex :
    getGeneral stConvW "phase" = some (.vStr "convergence")
    ∧ exceptIsOk (run envW cfgW false stConvW) = true
    ∧ getGeneral (runOut (run envW cfgW false stConvW) stConvW) "phase"
      = some (.vStr "convergence") := by
  refine ⟨by decide, by decide, by decide⟩

/-- C7 (amended): the checkpoint-continuity step `__move_cpt` itself treats an
existing checkpoint at the target working directory as already done in every
phase: it leaves the file state untouched and raises nothing.  (At the `run()`
level this resume-in-place holds for convergence and production only: a
training run first moves an existing checkpoint aside to `state.cpt.bak` and
starts over with new targets.) -/
theorem move_cpt_existing_resume (cfg : Cfg) (st : St) (en it ph : Val)
    (hit : getGeneral st "iteration" = some it)
    (hen : getGeneral st "ensemble_num" = some en)
    (hph : getGeneral st "phase" = some ph)
    (hcpt : cptPath cfg en it ph ∈ st.files) :
    move_cpt cfg st = .ok st := by
  unfold move_cpt
  simp only [getVal_of_getGeneral st "iteration" it (by decide) hit,
    getVal_of_getGeneral st "ensemble_num" en (by decide) hen,
    getVal_of_getGeneral st "phase" ph (by decide) hph]
  rw [if_pos hcpt]

/-- Witness for C7 (amended): with the production checkpoint already present,
`__move_cpt` returns the world unchanged. -/
theorem move_cpt_existing_resume_witness :
    move_cpt cfgW stProdSkipW = .ok stProdSkipW :=
  move_cpt_existing_resume cfgW stProdSkipW (.vInt 1) (.vInt 0)
    (.vStr "production") (by decide) (by decide) (by decide) (by decide)

/-- Counterexample for C7 as stated: a training `run()` with a checkpoint
already present at the training working directory completes successfully but
does not leave the checkpoint untouched; the file is moved away (to
`state.cpt.bak`). -/
theorem run_training_moves_existing_cpt_cex :
    "/ens/mem_1/0/training/state.cpt" ∈ stTrainCptW.files
    ∧ exceptIsOk (run envW cfgW false stTrainCptW) = true
    ∧ "/ens/mem_1/0/training/state.cpt"
        ∉ (runOut (run envW cfgW false stTrainCptW) stTrainCptW).files := by
  refine ⟨by decide, by decide, by decide⟩

theorem move_cpt_missing_conv_err (cfg : Cfg) (st : St) (en it : Val)
    (hit : getGeneral st "iteration" = some it)
    (hen : getGeneral st "ensemble_num" = some en)
    (hph : getGeneral st "phase" = some (.vStr "production"))
    (hprod : cptPath cfg en it (.vStr "production") ∉ st.files)
    (hconv : convCptPath cfg en it ∉ st.files) :
    move_cpt cfg st = .error (.fileNotFound, st) := by
  unfold move_cpt
  simp only [getVal_of_getGeneral st "iteration" it (by decide) hit,
    getVal_of_getGeneral st "ensemble_num" en (by decide) hen,
    getVal_of_getGeneral st "phase" _ (by decide) hph]
  rw [if_neg hprod, if_neg (by decide), if_neg hconv]

theorem production_missing_conv_err (env : Env) (cfg : Cfg) (st : St) (en it : Val)
    (hit : getGeneral st "iteration" = some it)
    (hen : getGeneral st "ensemble_num" = some en)
    (hph : getGeneral st "phase" = some (.vStr "production"))
    (hprod : cptPath cfg en it (.vStr "production") ∉ st.files)
    (hconv : convCptPath cfg en it ∉ st.files) :
    production env cfg st = .error (.fileNotFound, st) := by
  unfold production
  rw [move_cpt_missing_conv_err cfg st en it hit hen hph hprod hconv]

theorem change_directory_production (cfg : Cfg) (st : St) (en it : Val)
    (hit : getGeneral st "iteration" = some it)
    (hen : getGeneral st "ensemble_num" = some en)
    (hph : getGeneral st "phase" = some (.vStr "production")) :
    change_directory cfg st = .ok { st with cwd := productionDir cfg en it } := by
  have hpd1 : alookup (dictSet st.rd.general_params.get_as_dictionary
      "work_sample" (.vInt cfg.work_sample)) "ensemble_num" = some en := by
    rw [alookup_dictSet_ne _ _ _ _ (by decide)]
    exact hen
  have hpd2 : alookup (dictSet st.rd.general_params.get_as_dictionary
      "work_sample" (.vInt cfg.work_sample)) "iteration" = some it := by
    rw [alookup_dictSet_ne _ _ _ _ (by decide)]
    exact hit
  have hpd3 : alookup (dictSet st.rd.general_params.get_as_dictionary
      "work_sample" (.vInt cfg.work_sample)) "phase" = some (.vStr "production") := by
    rw [alookup_dictSet_ne _ _ _ _ (by decide)]
    exact hph
  have hpd4 : alookup (dictSet st.rd.general_params.get_as_dictionary
      "work_sample" (.vInt cfg.work_sample)) "work_sample"
      = some (.vInt cfg.work_sample) := alookup_dictSet_self _ _ _
  unfold change_directory
  rw [getVal_of_getGeneral st "phase" _ (by decide) hph]
  simp [DirectoryHelper.make, DirectoryHelper.build_working_dir,
    DirectoryHelper.get_dir, hasKey_of_alookup _ _ _ hpd1,
    hasKey_of_alookup _ _ _ hpd2, hasKey_of_alookup _ _ _ hpd3,
    hpd1, hpd2, hpd3, hpd4, productionDir]

/-- C6 (amended): invoking `run()` in the production phase when neither the
production checkpoint nor the convergence checkpoint of the current iteration
and work sample exists on disk raises a fatal `FileNotFoundError`, and the
persisted state document is exactly what it was before the call (if the
production checkpoint already exists, the convergence checkpoint is not
consulted and no error is raised). -/
theorem run_production_missing_cpt_fatal (env : Env) (cfg : Cfg) (b : Bool)
    (st : St) (en it : Val)
    (hph : getGeneral st "phase" = some (.vStr "production"))
    (hen : getGeneral st "ensemble_num" = some en)
    (hit : getGeneral st "iteration" = some it)
    (hprod : cptPath cfg en it (.vStr "production") ∉ st.files)
    (hconv : convCptPath cfg en it ∉ st.files) :
    run env cfg b st
      = .error (.fileNotFound, { st with cwd := productionDir cfg en it })
    ∧ ({ st with cwd := productionDir cfg en it } : St).saved = st.saved := by
  constructor
  · unfold run
    rw [getVal_of_getGeneral st "phase" _ (by decide) hph]
    rw [change_directory_production cfg st en it hit hen hph]
    have hpe := production_missing_conv_err env cfg
      { st with cwd := productionDir cfg en it } en it hit hen hph hprod hconv
    simp [hpe]
  · rfl

/-- Witness for C6 (amended): a concrete production-phase world with no
checkpoints at all makes `run()` fail with `FileNotFoundError` while the
previously persisted document survives untouched. -/
theorem run_production_missing_cpt_fatal_witness :
    run envW cfgW false stProdNoneW
      = .error (.fileNotFound, { stProdNoneW with cwd := productionDir cfgW (.vInt 1) (.vInt 0) })
    ∧ ({ stProdNoneW with cwd := productionDir cfgW (.vInt 1) (.vInt 0) } : St).saved
      = stProdNoneW.saved :=
  run_production_missing_cpt_fatal envW cfgW false stProdNoneW (.vInt 1) (.vInt 0)
    (by decide) (by decide) (by decide) (by decide) (by decide)

/-- Counterexample for C6 as stated: when the production checkpoint already
exists, `run()` succeeds even though the convergence checkpoint for the same
iteration and work sample is absent from disk. -/
theorem run_production_existing_cpt_no_error_cex :
    convCptPath cfgW (.vInt 1) (.vInt 0) ∉ stProdSkipW.files
    ∧ exceptIsOk (run envW cfgW false stProdSkipW) = true := by
  refine ⟨by decide, by decide⟩

end CorrStruct
